import Mathlib

/-!
Verification of the hudlink eligibility pipeline (sdabney5/hudlink).

Shallow embedding of the core pipeline stages, translated from
`src/hudlink/hudlink_prisoner_adjustment.py`,
`src/hudlink/hudlink_fill_counties_and_allocation.py`,
`src/hudlink/hudlink_income_cleaning_and_household_splitting.py`, and
`src/hudlink/hudlink_eligibility_calculation.py`.

pandas DataFrames are modelled as lists of structure rows; nullable (NaN)
cells are `Option ℚ`; float arithmetic is modelled over `ℚ` with explicit
decimal rounding where the source rounds.
-/

namespace Hudlink

/-! ## Incarceration adjuster: `select_inmates_vec`
(`hudlink_prisoner_adjustment.py`, lines 96-129)

A candidate row of one county/race pool of `potential` households
(`GQTYPE == 1`, `FAMSIZE == 1`, `Eligible_at_80% == 1`).  `idx` is the
pandas index label of the row in `eligibility_df`, `wt` its `REALHHWT`.
The random shuffle (`assign(_rand).sort_values('_rand')`) is modelled by
taking the candidate list already in shuffled order, so every theorem
quantifies over all permutations. -/
structure Cand where
  idx : ℤ
  wt : ℚ
deriving DecidableEq, Repr

/-- `Series.cumsum`: running cumulative sums, in list order. -/
def cumsum (ws : List ℚ) : List ℚ :=
  (ws.scanl (· + ·) 0).tail

/-- The rows of `df2` (the shuffled pool) whose mask entry is true in
`select_inmates_vec`: `csum = df2['REALHHWT'].cumsum()`,
`maskA = csum <= target`,
`idx_closest = (csum - target).abs().idxmin()` (first index label attaining
the minimum), `maskB = df2.index <= idx_closest` (a comparison of index
*labels*, not positions), `sumA = csum[maskA].sum()`,
`sumB = csum[maskB].sum()`, and
`best_mask = maskA if abs(sumA - target) < abs(sumB - target) else maskB`. -/
def selectRows (df : List Cand) (target : ℚ) : List Cand :=
  if df = [] ∨ target ≤ 0 then [] else
    let pairs := df.zip (cumsum (df.map Cand.wt))
    let dmin := ((pairs.map (fun p => |p.2 - target|)).min?).getD 0
    let closest := ((pairs.find? (fun p => decide (|p.2 - target| = dmin))).map
      (fun p => p.1.idx)).getD 0
    let maskA := fun p : Cand × ℚ => decide (p.2 ≤ target)
    let maskB := fun p : Cand × ℚ => decide (p.1.idx ≤ closest)
    let sumA := ((pairs.filter maskA).map Prod.snd).sum
    let sumB := ((pairs.filter maskB).map Prod.snd).sum
    let best := if |sumA - target| < |sumB - target| then maskA else maskB
    (pairs.filter best).map Prod.fst

/-- `select_inmates_vec df target`: the index labels returned
(`df2.index[best_mask]`), which the county loop then zeroes out. -/
def select_inmates_vec (df : List Cand) (target : ℚ) : List ℤ :=
  (selectRows df target).map Cand.idx

/-- Total `REALHHWT` weight removed by one selection
(`eligibility_df.loc[sel, 'REALHHWT'].sum()`). -/
def removedWeight (df : List Cand) (target : ℚ) : ℚ :=
  ((selectRows df target).map Cand.wt).sum

/-- Modelled from the spec: the sampling-mode stopping rule as the spec
states it.  Candidates are randomly permuted (here: `ws` is the weight
sequence in permutation order); prefix (a) is the maximal prefix whose
cumulative sum does not exceed the target, prefix (b) ends at the index
whose cumulative sum is numerically closest to the target; the rule
returns the summed weight of whichever prefix matches the target more
closely.  This definition exists only to compare the code's selection
against the spec's words. -/
def specPrefixWeight (ws : List ℚ) (target : ℚ) : ℚ :=
  let cs := cumsum ws
  let sumA := ((cs.takeWhile (fun c => decide (c ≤ target))).getLast?).getD 0
  let dmin := ((cs.map (fun c => |c - target|)).min?).getD 0
  let sumB := ((cs.find? (fun c => decide (|c - target| = dmin))).getD 0)
  if |sumA - target| < |sumB - target| then sumA else sumB

theorem cumsum_length (ws : List ℚ) : (cumsum ws).length = ws.length := by
  simp [cumsum, List.length_scanl]

theorem filter_zip_map_fst_sublist (df : List Cand) (cs : List ℚ) (p : Cand × ℚ → Bool)
    (h : df.length ≤ cs.length) :
    List.Sublist (((df.zip cs).filter p).map Prod.fst) df := by
  have hz : (df.zip cs).map Prod.fst = df := List.map_fst_zip df cs h
  have h1 := List.Sublist.map Prod.fst (List.filter_sublist (l := df.zip cs) (p := p))
  rwa [hz] at h1

theorem selectRows_sublist (df : List Cand) (target : ℚ) :
    List.Sublist (selectRows df target) df := by
  unfold selectRows
  split
  · exact List.nil_sublist df
  · exact filter_zip_map_fst_sublist df (cumsum (df.map Cand.wt)) _
      (by simp [cumsum_length])

theorem select_inmates_vec_sublist (df : List Cand) (target : ℚ) :
    List.Sublist (select_inmates_vec df target) (df.map Cand.idx) :=
  List.Sublist.map Cand.idx (selectRows_sublist df target)

/-- C9: In sampling mode, assuming every candidate weight is non-negative, the
total weight removed for a county (or race stratum) pool is non-negative and
never exceeds the sum of all candidate weights in that pool, and — when the
pool's index labels are distinct, as pandas row labels are — no candidate
household is selected twice. -/
theorem sampling_removal_bounded (df : List Cand) (target : ℚ)
    (h : ∀ c ∈ df, 0 ≤ c.wt) :
    0 ≤ removedWeight df target ∧
    removedWeight df target ≤ (df.map Cand.wt).sum ∧
    ((df.map Cand.idx).Nodup → (select_inmates_vec df target).Nodup) := by
  have hsub : List.Sublist ((selectRows df target).map Cand.wt) (df.map Cand.wt) :=
    List.Sublist.map Cand.wt (selectRows_sublist df target)
  have hwts : ∀ a ∈ df.map Cand.wt, (0:ℚ) ≤ a := by
    intro a ha
    rcases List.mem_map.mp ha with ⟨c, hc, rfl⟩
    exact h c hc
  refine ⟨?_, ?_, ?_⟩
  · exact List.sum_nonneg (fun a ha => hwts a (hsub.subset ha))
  · exact List.Sublist.sum_le_sum hsub hwts
  · intro hnd
    exact hnd.sublist (select_inmates_vec_sublist df target)

theorem sampling_removal_bounded_witness :
    (∀ c ∈ [Cand.mk 0 40, Cand.mk 1 35, Cand.mk 2 30], 0 ≤ c.wt) ∧
    0 ≤ removedWeight [Cand.mk 0 40, Cand.mk 1 35, Cand.mk 2 30] 100 ∧
    removedWeight [Cand.mk 0 40, Cand.mk 1 35, Cand.mk 2 30] 100 ≤
      (([Cand.mk 0 40, Cand.mk 1 35, Cand.mk 2 30]).map Cand.wt).sum ∧
    ((([Cand.mk 0 40, Cand.mk 1 35, Cand.mk 2 30]).map Cand.idx).Nodup →
      (select_inmates_vec [Cand.mk 0 40, Cand.mk 1 35, Cand.mk 2 30] 100).Nodup) := by
  have h : ∀ c ∈ [Cand.mk 0 40, Cand.mk 1 35, Cand.mk 2 30], (0:ℚ) ≤ c.wt := by
    intro c hc
    simp only [List.mem_cons, List.not_mem_nil, or_false] at hc
    rcases hc with rfl | rfl | rfl <;> norm_num
  exact ⟨h, sampling_removal_bounded [Cand.mk 0 40, Cand.mk 1 35, Cand.mk 2 30] 100 h⟩

/-- C1: at the spec's own scenario — target 100, candidate weights
[40, 35, 30] (shuffle order as listed) — `select_inmates_vec` compares the
*sums of cumulative sums* of its two masks (115 and 220) instead of the
masked subsets' summed weights (75 and 105), so it removes weight 75,
while the docstring ("Chooses the subset whose sum is closest to the
target") and the spec's stopping rule give 105; the claimed outcome
"95 or 105, whichever is closer" never holds. -/
theorem select_inmates_closest_subset_bug :
    removedWeight [Cand.mk 0 40, Cand.mk 1 35, Cand.mk 2 30] 100 = 75 ∧
    select_inmates_vec [Cand.mk 0 40, Cand.mk 1 35, Cand.mk 2 30] 100 = [0, 1] ∧
    specPrefixWeight [40, 35, 30] 100 = 105 ∧
    |(105:ℚ) - 100| < |(75:ℚ) - 100| ∧
    removedWeight [Cand.mk 0 40, Cand.mk 1 35, Cand.mk 2 30] 100 ≠ 95 ∧
    removedWeight [Cand.mk 0 40, Cand.mk 1 35, Cand.mk 2 30] 100 ≠ 105 := by
  have hsel : selectRows [Cand.mk 0 40, Cand.mk 1 35, Cand.mk 2 30] 100 =
      [Cand.mk 0 40, Cand.mk 1 35] := by
    norm_num [selectRows, cumsum, List.scanl, List.min?, List.find?, List.filter_cons,
      min_def, List.zip, List.zipWith]
    intro h
    exact absurd h (by simp)
  have hspec : specPrefixWeight [40, 35, 30] 100 = 105 := by
    norm_num [specPrefixWeight, cumsum, List.scanl, List.min?, List.find?,
      List.takeWhile, List.getLast?, min_def]
  refine ⟨?_, ?_, hspec, by norm_num, ?_, ?_⟩ <;>
    simp [removedWeight, select_inmates_vec, hsel] <;> norm_num

/-! ## Geographic allocator: `fill_missing_county_values`
(`hudlink_fill_counties_and_allocation.py`, lines 27-86)

PUMA codes are modelled as already-trimmed strings (the function's step 1
normalises them with `astype(str).str.strip()` on all three tables). -/

/-- One IPUMS person row as consumed by `fill_missing_county_values`. -/
structure PersonRow where
  puma : String
  hhwt : ℚ
  multyear : ℤ
deriving DecidableEq, Repr

/-- One crosswalk row: `PUMA`, `County_Name`, `allocation factor`. -/
structure CrosswalkEntry where
  puma : String
  county : String
  factor : ℚ
deriving DecidableEq, Repr

/-- One row of the merged table before the county fill: `County_Name` and
`allocation factor` are `none` (NaN) for an unmatched PUMA. -/
structure MergedRow where
  puma : String
  hhwt : ℚ
  multyear : ℤ
  county : Option String
  factor : Option ℚ
  allocatedHHWT : Option ℚ
deriving DecidableEq, Repr

/-- One output row, after `County_Name` is filled and `County_Name_Alt`
standardised. -/
structure FilledRow where
  puma : String
  hhwt : ℚ
  multyear : ℤ
  county : String
  factor : Option ℚ
  allocatedHHWT : Option ℚ
  countyAlt : String
deriving DecidableEq, Repr

/-- `pd.merge(df, crosswalk, on='PUMA', how='left')`, restricted to one left
row: one output row per matching crosswalk entry, in crosswalk order, or a
single all-NaN-extended row when no entry matches. -/
def leftMergeRow (cw : List CrosswalkEntry) (r : PersonRow) : List MergedRow :=
  match cw.filter (fun e => decide (e.puma = r.puma)) with
  | [] => [⟨r.puma, r.hhwt, r.multyear, none, none, none⟩]
  | ms => ms.map (fun e => ⟨r.puma, r.hhwt, r.multyear, some e.county, some e.factor, none⟩)

/-- `merged['Allocated_HHWT'] = merged['HHWT'] * merged['allocation factor']`:
NaN propagates, so an unmatched row's allocated weight is NaN (`none`). -/
def withAllocated (m : MergedRow) : MergedRow :=
  ⟨m.puma, m.hhwt, m.multyear, m.county, m.factor, m.factor.map (fun f => m.hhwt * f)⟩

/-- Steps 4 and 6: `County_Name`.fillna('Unknown County') and
`County_Name_Alt = x[:-2] + 'County'` for every known county. -/
def fillCounty (m : MergedRow) : FilledRow :=
  let c := m.county.getD "Unknown County"
  ⟨m.puma, m.hhwt, m.multyear, c, m.factor, m.allocatedHHWT,
    if c ≠ "Unknown County" then (c.dropRight 2) ++ "County" else c⟩

/-- `fill_missing_county_values`:  if any record has `MULTYEAR >= 2023` the
2022 crosswalk is used for the whole table; otherwise the table is split at
`MULTYEAR` 2019/2020, each part merged against its own crosswalk, and the
parts concatenated. -/
def fill_missing_county_values (rows : List PersonRow)
    (cw2012 cw2022 : List CrosswalkEntry) : List FilledRow :=
  let merged :=
    if rows.any (fun r => decide (2023 ≤ r.multyear)) then
      rows.flatMap (fun r => (leftMergeRow cw2022 r).map withAllocated)
    else
      (rows.filter (fun r => decide (r.multyear ≤ 2019))).flatMap
        (fun r => (leftMergeRow cw2012 r).map withAllocated)
      ++ (rows.filter (fun r => decide (2020 ≤ r.multyear))).flatMap
        (fun r => (leftMergeRow cw2022 r).map withAllocated)
  merged.map fillCounty

/-- Step 5: the unique PUMA codes of rows whose county is
'Unknown County' (the unmatched-PUMA warning list). -/
def unmatchedPUMAs (out : List FilledRow) : List String :=
  ((out.filter (fun m => decide (m.county = "Unknown County"))).map FilledRow.puma).dedup

/-- The full per-row allocation pipeline against one crosswalk: merge,
compute `Allocated_HHWT`, fill the county and standardise its alt form. -/
def allocRowVia (cw : List CrosswalkEntry) (r : PersonRow) : List FilledRow :=
  ((leftMergeRow cw r).map withAllocated).map fillCounty

theorem flatMap_congr {α β : Type} (l : List α) (f g : α → List β)
    (h : ∀ x ∈ l, f x = g x) : l.flatMap f = l.flatMap g := by
  induction l with
  | nil => rfl
  | cons a t ih =>
    simp only [List.flatMap_cons]
    rw [h a (List.mem_cons_self a t), ih (fun x hx => h x (List.mem_cons_of_mem a hx))]

theorem fill_eq_allocRowVia (rows : List PersonRow) (cw2012 cw2022 : List CrosswalkEntry) :
    fill_missing_county_values rows cw2012 cw2022 =
      if rows.any (fun r => decide (2023 ≤ r.multyear)) then
        rows.flatMap (allocRowVia cw2022)
      else
        (rows.filter (fun r => decide (r.multyear ≤ 2019))).flatMap (allocRowVia cw2012)
        ++ (rows.filter (fun r => decide (2020 ≤ r.multyear))).flatMap (allocRowVia cw2022) := by
  unfold fill_missing_county_values allocRowVia
  by_cases h : rows.any (fun r => decide (2023 ≤ r.multyear)) = true
  · simp only [h, if_true, List.map_flatMap]
  · simp only [eq_false_of_ne_true h, Bool.false_eq_true, if_false, List.map_append,
      List.map_flatMap]

/-- C2 (amended): a record whose PUMA has no entry in either crosswalk is
carried as exactly one output row (no fan-out) with the sentinel county
'Unknown County', its PUMA appears in the unmatched-PUMA report of the full
output, but its `Allocated_HHWT` is null (`HHWT * NaN`), not the original
household weight. -/
theorem unmatched_puma_handling (rows : List PersonRow)
    (cw2012 cw2022 : List CrosswalkEntry) (r : PersonRow) (hr : r ∈ rows)
    (h12 : cw2012.filter (fun e => decide (e.puma = r.puma)) = [])
    (h22 : cw2022.filter (fun e => decide (e.puma = r.puma)) = []) :
    allocRowVia cw2012 r =
      [⟨r.puma, r.hhwt, r.multyear, "Unknown County", none, none, "Unknown County"⟩] ∧
    allocRowVia cw2022 r =
      [⟨r.puma, r.hhwt, r.multyear, "Unknown County", none, none, "Unknown County"⟩] ∧
    r.puma ∈ unmatchedPUMAs (fill_missing_county_values rows cw2012 cw2022) := by
  have ha12 : allocRowVia cw2012 r =
      [⟨r.puma, r.hhwt, r.multyear, "Unknown County", none, none, "Unknown County"⟩] := by
    simp [allocRowVia, leftMergeRow, h12, withAllocated, fillCounty]
  have ha22 : allocRowVia cw2022 r =
      [⟨r.puma, r.hhwt, r.multyear, "Unknown County", none, none, "Unknown County"⟩] := by
    simp [allocRowVia, leftMergeRow, h22, withAllocated, fillCounty]
  refine ⟨ha12, ha22, ?_⟩
  have hmem : (⟨r.puma, r.hhwt, r.multyear, "Unknown County", none, none,
      "Unknown County"⟩ : FilledRow) ∈ fill_missing_county_values rows cw2012 cw2022 := by
    rw [fill_eq_allocRowVia]
    by_cases hany : rows.any (fun s => decide (2023 ≤ s.multyear)) = true
    · rw [if_pos hany]
      exact List.mem_flatMap.mpr ⟨r, hr, by rw [ha22]; exact List.mem_singleton_self _⟩
    · rw [if_neg hany]
      by_cases hy : r.multyear ≤ 2019
      · refine List.mem_append_left _ (List.mem_flatMap.mpr ⟨r, ?_, ?_⟩)
        · exact List.mem_filter.mpr ⟨hr, by simpa using hy⟩
        · rw [ha12]; exact List.mem_singleton_self _
      · refine List.mem_append_right _ (List.mem_flatMap.mpr ⟨r, ?_, ?_⟩)
        · exact List.mem_filter.mpr ⟨hr, by simp; omega⟩
        · rw [ha22]; exact List.mem_singleton_self _
  unfold unmatchedPUMAs
  refine List.mem_dedup.mpr (List.mem_map.mpr ⟨_, List.mem_filter.mpr ⟨hmem, by simp⟩, rfl⟩)

theorem unmatched_puma_handling_witness :
    ((([] : List CrosswalkEntry)).filter
        (fun e => decide (e.puma = (PersonRow.mk "0101" 40 2019).puma)) = []) ∧
    allocRowVia [] (PersonRow.mk "0101" 40 2019) =
      [⟨"0101", 40, 2019, "Unknown County", none, none, "Unknown County"⟩] ∧
    allocRowVia [] (PersonRow.mk "0101" 40 2019) =
      [⟨"0101", 40, 2019, "Unknown County", none, none, "Unknown County"⟩] ∧
    "0101" ∈ unmatchedPUMAs (fill_missing_county_values [PersonRow.mk "0101" 40 2019] [] []) := by
  refine ⟨rfl, ?_⟩
  exact unmatched_puma_handling [PersonRow.mk "0101" 40 2019] [] []
    (PersonRow.mk "0101" 40 2019) (List.mem_singleton_self _) rfl rfl

/-- C2 (counterexample to the claim as stated): for a record with household
weight 40 and a PUMA absent from the crosswalk, the output row's allocated
weight is null, not 40. -/
theorem unmatched_puma_weight_cex :
    fill_missing_county_values [PersonRow.mk "0101" 40 2019] [] [] =
      [⟨"0101", 40, 2019, "Unknown County", none, none, "Unknown County"⟩] ∧
    (fill_missing_county_values [PersonRow.mk "0101" 40 2019] [] []).map
      FilledRow.allocatedHHWT = [none] ∧
    (none : Option ℚ) ≠ some 40 := by
  have h : fill_missing_county_values [PersonRow.mk "0101" 40 2019] [] [] =
      [⟨"0101", 40, 2019, "Unknown County", none, none, "Unknown County"⟩] := by
    simp [fill_missing_county_values, leftMergeRow, withAllocated, fillCounty]
  exact ⟨h, by rw [h]; rfl, by simp⟩

/-- C5 (amended): when no record has `MULTYEAR >= 2023`, the table is split
into disjoint cohorts by each record's own year (`<= 2019` vs `>= 2020`),
each cohort is joined only against its own crosswalk, and the cohorts are
concatenated back, so the output is a permutation of allocating every record
against the crosswalk selected by its own year — no cross-contamination.
(When some record has `MULTYEAR >= 2023`, the whole table is instead joined
against the 2022 crosswalk; see the counterexample.) -/
theorem cohort_allocation_no_contamination (rows : List PersonRow)
    (cw2012 cw2022 : List CrosswalkEntry) (h : ∀ r ∈ rows, r.multyear < 2023) :
    List.Perm (fill_missing_county_values rows cw2012 cw2022)
      (rows.flatMap (fun r =>
        allocRowVia (if r.multyear ≤ 2019 then cw2012 else cw2022) r)) := by
  rw [fill_eq_allocRowVia]
  have hany : rows.any (fun r => decide (2023 ≤ r.multyear)) = false := by
    simp only [List.any_eq_false, decide_eq_true_eq]
    intro r hr
    exact fun hc => absurd (h r hr) (not_lt.mpr hc)
  rw [if_neg (by simp [hany])]
  have h1 : (rows.filter (fun r => decide (r.multyear ≤ 2019))).flatMap
      (allocRowVia cw2012) = (rows.filter (fun r => decide (r.multyear ≤ 2019))).flatMap
      (fun r => allocRowVia (if r.multyear ≤ 2019 then cw2012 else cw2022) r) := by
    refine flatMap_congr _ _ _ (fun x hx => ?_)
    have hy : x.multyear ≤ 2019 := by simpa using (List.mem_filter.mp hx).2
    rw [if_pos hy]
  have h2 : (rows.filter (fun r => decide (2020 ≤ r.multyear))).flatMap
      (allocRowVia cw2022) = (rows.filter (fun r =>
        !(decide (r.multyear ≤ 2019)))).flatMap
      (fun r => allocRowVia (if r.multyear ≤ 2019 then cw2012 else cw2022) r) := by
    rw [List.filter_congr (fun x _ => ?_)]
    · refine flatMap_congr _ _ _ (fun x hx => ?_)
      have hy : ¬ x.multyear ≤ 2019 := by
        have := (List.mem_filter.mp hx).2
        simp at this
        omega
      rw [if_neg hy]
    · show decide (2020 ≤ x.multyear) = !decide (x.multyear ≤ 2019)
      by_cases hy : x.multyear ≤ 2019
      · simp [hy]; omega
      · simp [hy]; omega
  rw [h1, h2, ← List.flatMap_append _ _ _]
  exact (List.filter_append_perm _ rows).flatMap_right _

theorem cohort_allocation_no_contamination_witness :
    (∀ r ∈ [PersonRow.mk "7" 10 2019, PersonRow.mk "8" 20 2021], r.multyear < 2023) ∧
    List.Perm
      (fill_missing_county_values [PersonRow.mk "7" 10 2019, PersonRow.mk "8" 20 2021]
        [CrosswalkEntry.mk "7" "AlphaFL" 1] [CrosswalkEntry.mk "8" "BetaFL" 1])
      (([PersonRow.mk "7" 10 2019, PersonRow.mk "8" 20 2021]).flatMap (fun r =>
        allocRowVia (if r.multyear ≤ 2019 then [CrosswalkEntry.mk "7" "AlphaFL" 1]
          else [CrosswalkEntry.mk "8" "BetaFL" 1]) r)) := by
  have h : ∀ r ∈ [PersonRow.mk "7" 10 2019, PersonRow.mk "8" 20 2021],
      r.multyear < 2023 := by
    intro r hr
    simp only [List.mem_cons, List.not_mem_nil, or_false] at hr
    rcases hr with rfl | rfl <;> norm_num
  exact ⟨h, cohort_allocation_no_contamination _ _ _ h⟩

/-- C5 (counterexample to the claim as stated): with a 2019 record and a 2023
record in the same table, the 2019 record is joined against the 2022
crosswalk (county BetaFL), not its own 2012 crosswalk (county AlphaFL), so
the output is not cohort-by-cohort own-crosswalk allocation. -/
theorem cohort_cross_contamination_cex :
    (fill_missing_county_values [PersonRow.mk "7" 10 2019, PersonRow.mk "8" 20 2023]
        [CrosswalkEntry.mk "7" "AlphaFL" 1]
        [CrosswalkEntry.mk "7" "BetaFL" 1, CrosswalkEntry.mk "8" "BetaFL" 1]).map
      FilledRow.county = ["BetaFL", "BetaFL"] ∧
    (([PersonRow.mk "7" 10 2019, PersonRow.mk "8" 20 2023]).flatMap (fun r =>
        allocRowVia (if r.multyear ≤ 2019 then [CrosswalkEntry.mk "7" "AlphaFL" 1]
          else [CrosswalkEntry.mk "7" "BetaFL" 1, CrosswalkEntry.mk "8" "BetaFL" 1]) r)).map
      FilledRow.county = ["AlphaFL", "BetaFL"] ∧
    ¬ List.Perm
      (fill_missing_county_values [PersonRow.mk "7" 10 2019, PersonRow.mk "8" 20 2023]
        [CrosswalkEntry.mk "7" "AlphaFL" 1]
        [CrosswalkEntry.mk "7" "BetaFL" 1, CrosswalkEntry.mk "8" "BetaFL" 1])
      (([PersonRow.mk "7" 10 2019, PersonRow.mk "8" 20 2023]).flatMap (fun r =>
        allocRowVia (if r.multyear ≤ 2019 then [CrosswalkEntry.mk "7" "AlphaFL" 1]
          else [CrosswalkEntry.mk "7" "BetaFL" 1, CrosswalkEntry.mk "8" "BetaFL" 1]) r)) := by
  have hfill : (fill_missing_county_values
      [PersonRow.mk "7" 10 2019, PersonRow.mk "8" 20 2023]
      [CrosswalkEntry.mk "7" "AlphaFL" 1]
      [CrosswalkEntry.mk "7" "BetaFL" 1, CrosswalkEntry.mk "8" "BetaFL" 1]).map
      FilledRow.county = ["BetaFL", "BetaFL"] := by
    simp +decide [fill_missing_county_values, leftMergeRow, withAllocated, fillCounty,
      List.filter_cons]
  have hown : (([PersonRow.mk "7" 10 2019, PersonRow.mk "8" 20 2023]).flatMap (fun r =>
      allocRowVia (if r.multyear ≤ 2019 then [CrosswalkEntry.mk "7" "AlphaFL" 1]
        else [CrosswalkEntry.mk "7" "BetaFL" 1, CrosswalkEntry.mk "8" "BetaFL" 1]) r)).map
      FilledRow.county = ["AlphaFL", "BetaFL"] := by
    simp +decide [allocRowVia, leftMergeRow, withAllocated, fillCounty, List.filter_cons]
  refine ⟨hfill, hown, fun hp => ?_⟩
  have hc := hp.map FilledRow.county
  rw [hfill, hown] at hc
  have : ("AlphaFL" : String) ∈ (["BetaFL", "BetaFL"] : List String) :=
    hc.mem_iff.mpr (by simp)
  simp at this

/-! ## Household splitter: `split_multifamily_households`
(`hudlink_income_cleaning_and_household_splitting.py`, lines 70-112)

`REALHHWT = (Allocated_HHWT / NFAMS_B4_SPLIT).round(6)`.  numpy's `round`
rounds half to even on the decimal value, modelled exactly over `ℚ`. -/

/-- Round half to even to an integer (numpy rounding). -/
def rhe (x : ℚ) : ℤ :=
  if x - ⌊x⌋ < 1/2 then ⌊x⌋
  else if 1/2 < x - ⌊x⌋ then ⌊x⌋ + 1
  else if 2 ∣ ⌊x⌋ then ⌊x⌋ else ⌊x⌋ + 1

/-- `Series.round(6)`: round half to even at the sixth decimal. -/
def round6 (x : ℚ) : ℚ :=
  (rhe (x * 1000000) : ℚ) / 1000000

/-- One household-and-county group of the post-split table: its (shared)
`Allocated_HHWT`, its (shared) `NFAMS_B4_SPLIT` and the `FAMUNIT` value of
each person row in the group.  `FAMILYNUMBER` is `CBSERIAL + FAMUNIT +
County_Name`, so within one group distinct families are distinct `FAMUNIT`
values. -/
structure SplitGroup where
  allocated : ℚ
  nfams : ℕ
  famunits : List ℕ
deriving DecidableEq, Repr

/-- `REALHHWT` of every row of the group:
`(Allocated_HHWT / NFAMS_B4_SPLIT).round(6)`. -/
def realhhwt (g : SplitGroup) : ℚ :=
  round6 (g.allocated / (g.nfams : ℚ))

/-- The group's post-split family weight total: `REALHHWT` summed once per
distinct family (`drop_duplicates(subset=['FAMILYNUMBER'])`). -/
def familyWeightSum (g : SplitGroup) : ℚ :=
  ((g.famunits.dedup).map (fun _ => realhhwt g)).sum

theorem rhe_sub_le (x : ℚ) : |(rhe x : ℚ) - x| ≤ 1/2 := by
  have h0 : (0:ℚ) ≤ x - ⌊x⌋ := by
    have := Int.floor_le x
    linarith
  have h1 : x - ⌊x⌋ < 1 := by
    have := Int.lt_floor_add_one x
    linarith
  unfold rhe
  split_ifs with ha hb hc
  · rw [abs_le]
    constructor <;> linarith
  · rw [abs_le]
    push_cast
    constructor <;> linarith
  · have hx : x - ⌊x⌋ = 1/2 := le_antisymm (not_lt.mp hb) (not_lt.mp ha)
    rw [abs_le]
    constructor <;> linarith
  · have hx : x - ⌊x⌋ = 1/2 := le_antisymm (not_lt.mp hb) (not_lt.mp ha)
    rw [abs_le]
    push_cast
    constructor <;> linarith

theorem round6_sub_le (x : ℚ) : |round6 x - x| ≤ 1/2000000 := by
  have h := rhe_sub_le (x * 1000000)
  have hdiv : round6 x - x = ((rhe (x * 1000000) : ℚ) - x * 1000000) / 1000000 := by
    unfold round6
    ring
  rw [hdiv, abs_div]
  have habs : |(1000000 : ℚ)| = 1000000 := by norm_num
  rw [habs]
  rw [div_le_iff₀ (by norm_num : (0:ℚ) < 1000000)]
  calc |(rhe (x * 1000000) : ℚ) - x * 1000000| ≤ 1/2 := h
    _ = 1/2000000 * 1000000 := by norm_num

theorem sum_map_const {α : Type} (l : List α) (c : ℚ) :
    (l.map (fun _ => c)).sum = l.length * c := by
  induction l with
  | nil => simp
  | cons a t ih =>
    simp [ih]
    ring

/-- C3 (amended): for a household-and-county group whose recorded
`NFAMS_B4_SPLIT` equals its number of distinct families, the per-family
weights sum to `NFAMS_B4_SPLIT * round6(Allocated_HHWT / NFAMS_B4_SPLIT)`,
which is within `NFAMS_B4_SPLIT * 5e-7` of `Allocated_HHWT` absolutely, and
within the claimed `1e-6` relative tolerance whenever the allocated weight
is at least half the family count (always the case for genuine survey
weights); for smaller weights the relative bound can fail (see the
counterexample). -/
theorem split_weight_conservation (g : SplitGroup)
    (hk : (g.famunits.dedup).length = g.nfams) (hn : 0 < g.nfams) :
    |familyWeightSum g - g.allocated| ≤ (g.nfams : ℚ) * (1/2000000) ∧
    ((g.nfams : ℚ) / 2 ≤ g.allocated →
      |familyWeightSum g - g.allocated| ≤ (1/1000000) * g.allocated) := by
  have hnQ : (0:ℚ) < (g.nfams : ℚ) := by exact_mod_cast hn
  have hsum : familyWeightSum g = (g.nfams : ℚ) * realhhwt g := by
    unfold familyWeightSum
    rw [sum_map_const, hk]
  have hr := round6_sub_le (g.allocated / (g.nfams : ℚ))
  have hkey : |familyWeightSum g - g.allocated| ≤ (g.nfams : ℚ) * (1/2000000) := by
    have hfac : familyWeightSum g - g.allocated =
        (g.nfams : ℚ) * (realhhwt g - g.allocated / (g.nfams : ℚ)) := by
      rw [hsum]
      field_simp
      ring
    rw [hfac, abs_mul, abs_of_pos hnQ]
    exact mul_le_mul_of_nonneg_left hr (le_of_lt hnQ)
  refine ⟨hkey, fun hW => ?_⟩
  calc |familyWeightSum g - g.allocated| ≤ (g.nfams : ℚ) * (1/2000000) := hkey
    _ = ((g.nfams : ℚ) / 2) * (1/1000000) := by ring
    _ ≤ g.allocated * (1/1000000) := mul_le_mul_of_nonneg_right hW (by norm_num)
    _ = (1/1000000) * g.allocated := by ring

theorem split_weight_conservation_witness :
    ((SplitGroup.mk 40 2 [1, 2]).famunits.dedup).length = (SplitGroup.mk 40 2 [1, 2]).nfams ∧
    0 < (SplitGroup.mk 40 2 [1, 2]).nfams ∧
    (((SplitGroup.mk 40 2 [1, 2]).nfams : ℚ) / 2 ≤ (SplitGroup.mk 40 2 [1, 2]).allocated) ∧
    |familyWeightSum (SplitGroup.mk 40 2 [1, 2]) - (SplitGroup.mk 40 2 [1, 2]).allocated| ≤
      (1/1000000) * (SplitGroup.mk 40 2 [1, 2]).allocated := by
  have hk : ((SplitGroup.mk 40 2 [1, 2]).famunits.dedup).length =
      (SplitGroup.mk 40 2 [1, 2]).nfams := by decide
  have hn : 0 < (SplitGroup.mk 40 2 [1, 2]).nfams := by decide
  have hW : (((SplitGroup.mk 40 2 [1, 2]).nfams : ℚ) / 2 ≤
      (SplitGroup.mk 40 2 [1, 2]).allocated) := by norm_num
  exact ⟨hk, hn, hW, (split_weight_conservation _ hk hn).2 hW⟩

/-- C3 (counterexample to the claim as stated): a single-family group with
allocated weight 1/2500000 (= 4e-7, a legal `HHWT * allocation factor`
product) rounds its per-family weight to 0, so the family-weight sum misses
the allocated weight by 100%, far outside the claimed ~1e-6 relative
tolerance, even though `NFAMS_B4_SPLIT` matches the distinct-family count. -/
theorem split_weight_conservation_cex :
    ((SplitGroup.mk (1/2500000) 1 [1]).famunits.dedup).length =
      (SplitGroup.mk (1/2500000) 1 [1]).nfams ∧
    familyWeightSum (SplitGroup.mk (1/2500000) 1 [1]) = 0 ∧
    ¬ (|familyWeightSum (SplitGroup.mk (1/2500000) 1 [1]) -
        (SplitGroup.mk (1/2500000) 1 [1]).allocated| ≤
      (1/1000000) * |(SplitGroup.mk (1/2500000) 1 [1]).allocated|) := by
  have hfl : (⌊(2/5 : ℚ)⌋ : ℤ) = 0 := by
    rw [Int.floor_eq_iff]
    norm_num
  have hrhe : rhe (2/5) = 0 := by
    unfold rhe
    rw [hfl]
    norm_num
  have harg : (SplitGroup.mk (1/2500000) 1 [1]).allocated /
      ((SplitGroup.mk (1/2500000) 1 [1]).nfams : ℚ) * 1000000 = 2/5 := by
    norm_num
  have hreal : realhhwt (SplitGroup.mk (1/2500000) 1 [1]) = 0 := by
    unfold realhhwt round6
    rw [harg, hrhe]
    norm_num
  have hsum : familyWeightSum (SplitGroup.mk (1/2500000) 1 [1]) = 0 := by
    unfold familyWeightSum
    rw [hreal]
    simp
  refine ⟨by decide, hsum, ?_⟩
  rw [hsum]
  norm_num

/-! ## Income reconciler
(`hudlink_income_cleaning_and_household_splitting.py`, lines 17-67 and
115-157)

One person row, with the columns these functions touch.  `actual` is
`ACTUAL_HH_INCOME` and `otherPersonal` is `OTHERINCOME_PERSONAL`; both
columns do not exist before these functions run (`none`). -/
structure IncomeRow where
  nfams : ℕ
  hhwt : ℚ
  hhincome : Option ℚ
  ftotinc : Option ℚ
  incwage : Option ℚ
  incss : Option ℚ
  incwelfr : Option ℚ
  incinvst : Option ℚ
  incretir : Option ℚ
  incsupp : Option ℚ
  incother : Option ℚ
  incearn : Option ℚ
  actual : Option ℚ
  otherPersonal : Option ℚ
deriving DecidableEq, Repr

/-- `df.replace([9999999, 999999, 999998, 99999], 0)` on one numeric cell. -/
def replaceSentinel (x : ℚ) : ℚ :=
  if x = 9999999 ∨ x = 999999 ∨ x = 999998 ∨ x = 99999 then 0 else x

/-- The same replacement on an integer-valued cell such as `NFAMS`. -/
def replaceSentinelNat (x : ℕ) : ℕ :=
  if x = 9999999 ∨ x = 999999 ∨ x = 999998 ∨ x = 99999 then 0 else x

/-- `df.replace(...)` applies to every column of the frame, not only the
income columns. -/
def replaceRow (r : IncomeRow) : IncomeRow :=
  ⟨replaceSentinelNat r.nfams, replaceSentinel r.hhwt,
    r.hhincome.map replaceSentinel, r.ftotinc.map replaceSentinel,
    r.incwage.map replaceSentinel, r.incss.map replaceSentinel,
    r.incwelfr.map replaceSentinel, r.incinvst.map replaceSentinel,
    r.incretir.map replaceSentinel, r.incsupp.map replaceSentinel,
    r.incother.map replaceSentinel, r.incearn.map replaceSentinel,
    r.actual.map replaceSentinel, r.otherPersonal.map replaceSentinel⟩

/-- The three disjoint `ACTUAL_HH_INCOME` assignments of
`clean_single_family_income_data` (lines 48-57), row-wise: the
both-not-null rule applies to every row, the single-field rules only to
`NFAMS == 1` rows. -/
def cleanSingleRow (r : IncomeRow) : IncomeRow :=
  if r.hhincome.isSome ∧ r.ftotinc.isSome then
    ⟨r.nfams, r.hhwt, r.hhincome, r.ftotinc, r.incwage, r.incss, r.incwelfr,
      r.incinvst, r.incretir, r.incsupp, r.incother, r.incearn, r.ftotinc, r.otherPersonal⟩
  else if r.nfams = 1 ∧ r.hhincome.isNone ∧ r.ftotinc.isSome then
    ⟨r.nfams, r.hhwt, r.hhincome, r.ftotinc, r.incwage, r.incss, r.incwelfr,
      r.incinvst, r.incretir, r.incsupp, r.incother, r.incearn, r.ftotinc, r.otherPersonal⟩
  else if r.nfams = 1 ∧ r.ftotinc.isNone ∧ r.hhincome.isSome then
    ⟨r.nfams, r.hhwt, r.hhincome, r.ftotinc, r.incwage, r.incss, r.incwelfr,
      r.incinvst, r.incretir, r.incsupp, r.incother, r.incearn, r.hhincome, r.otherPersonal⟩
  else r

/-- `clean_single_family_income_data`: placeholder replacement on the whole
frame, then the `ACTUAL_HH_INCOME` precedence assignments. -/
def clean_single_family_income_data (rows : List IncomeRow) : List IncomeRow :=
  (rows.map replaceRow).map cleanSingleRow

/-- `income_columns[2:]` of `process_multi_family_income_data`:
`[INCWAGE, INCSS, INCWELFR, INCINVST, INCRETIR, INCSUPP, INCOTHER, INCEARN]`,
summed with pandas `sum(axis=1)`, which skips NaN and returns 0 when every
component is NaN. -/
def itemizedSum (r : IncomeRow) : ℚ :=
  r.incwage.getD 0 + r.incss.getD 0 + r.incwelfr.getD 0 + r.incinvst.getD 0 +
    r.incretir.getD 0 + r.incsupp.getD 0 + r.incother.getD 0 + r.incearn.getD 0

/-- Lines 142-147 of `process_multi_family_income_data`, row-wise: for
`NFAMS_B4_SPLIT > 1` rows, fill `ACTUAL_HH_INCOME` from `FTOTINC` when
present, else store the row's itemized component sum in
`OTHERINCOME_PERSONAL`. -/
def multiStepRow (r : IncomeRow) : IncomeRow :=
  if 1 < r.nfams then
    if r.ftotinc.isSome then
      ⟨r.nfams, r.hhwt, r.hhincome, r.ftotinc, r.incwage, r.incss, r.incwelfr,
        r.incinvst, r.incretir, r.incsupp, r.incother, r.incearn, r.ftotinc, r.otherPersonal⟩
    else
      ⟨r.nfams, r.hhwt, r.hhincome, r.ftotinc, r.incwage, r.incss, r.incwelfr,
        r.incinvst, r.incretir, r.incsupp, r.incother, r.incearn, r.actual,
        some (itemizedSum r)⟩
  else r

/-- `df.groupby('FAMILYNUMBER')['OTHERINCOME_PERSONAL'].sum()` for one
family: pandas group sums skip NaN and return 0 for an all-NaN group, so
the family value is always a number, never NaN. -/
def familyOther (rows : List IncomeRow) : ℚ :=
  (rows.map (fun r => r.otherPersonal.getD 0)).sum

/-- Lines 150-155: fill `ACTUAL_HH_INCOME` from the family's
`OTHERINCOME_FAMILY` value where it is still null. -/
def fillFromFamily (fam : ℚ) (r : IncomeRow) : IncomeRow :=
  if r.actual.isNone then
    ⟨r.nfams, r.hhwt, r.hhincome, r.ftotinc, r.incwage, r.incss, r.incwelfr,
      r.incinvst, r.incretir, r.incsupp, r.incother, r.incearn, some fam,
      r.otherPersonal⟩
  else r

/-- `process_multi_family_income_data`, restricted to the rows of one
family (one `FAMILYNUMBER` group): the per-row step, then the family-level
`OTHERINCOME_FAMILY` fill of every row whose `ACTUAL_HH_INCOME` is still
null (`OTHERINCOME_FAMILY` is never null, see `familyOther`). -/
def process_multi_family_income_data (rows : List IncomeRow) : List IncomeRow :=
  let stepped := rows.map multiStepRow
  stepped.map (fillFromFamily (familyOther stepped))

/-- The income-resolution pipeline applied to one family's rows, on
already-placeholder-cleaned values: the `ACTUAL_HH_INCOME` precedence
assignments of `clean_single_family_income_data` (lines 47-67) followed by
`process_multi_family_income_data` (lines 115-157). -/
def resolveFamilyRows (rows : List IncomeRow) : List IncomeRow :=
  process_multi_family_income_data (rows.map cleanSingleRow)

theorem cleanSingleRow_hhwt (r : IncomeRow) : (cleanSingleRow r).hhwt = r.hhwt := by
  unfold cleanSingleRow
  split_ifs <;> rfl

theorem cleanSingleRow_nfams (r : IncomeRow) : (cleanSingleRow r).nfams = r.nfams := by
  unfold cleanSingleRow
  split_ifs <;> rfl

/-- C10: the placeholder replacement of `clean_single_family_income_data`
acts on every column of the frame, not only the income fields: the output
`HHWT` (and `NFAMS`) of each row is the sentinel-replaced input value, and
a concrete row whose household weight is the sentinel 99999 comes out with
`HHWT = 0`. -/
theorem replace_hits_every_column :
    (∀ rows : List IncomeRow, (clean_single_family_income_data rows).map IncomeRow.hhwt =
      rows.map (fun r => replaceSentinel r.hhwt)) ∧
    (∀ rows : List IncomeRow, (clean_single_family_income_data rows).map IncomeRow.nfams =
      rows.map (fun r => replaceSentinelNat r.nfams)) ∧
    replaceSentinel 99999 = 0 ∧
    (clean_single_family_income_data
      [IncomeRow.mk 1 99999 (some 12000) (some 12000) none none none none none none
        none none none none]).map IncomeRow.hhwt = [0] := by
  have hw : ∀ rows : List IncomeRow, (clean_single_family_income_data rows).map
      IncomeRow.hhwt = rows.map (fun r => replaceSentinel r.hhwt) := by
    intro rows
    unfold clean_single_family_income_data
    rw [List.map_map, List.map_map]
    refine List.map_congr_left (fun r _ => ?_)
    show (cleanSingleRow (replaceRow r)).hhwt = replaceSentinel r.hhwt
    rw [cleanSingleRow_hhwt]
    rfl
  refine ⟨hw, ?_, by norm_num [replaceSentinel], ?_⟩
  · intro rows
    unfold clean_single_family_income_data
    rw [List.map_map, List.map_map]
    refine List.map_congr_left (fun r _ => ?_)
    show (cleanSingleRow (replaceRow r)).nfams = replaceSentinelNat r.nfams
    rw [cleanSingleRow_nfams]
    rfl
  · rw [hw]
    norm_num [replaceSentinel]

theorem cleanSingleRow_ftotinc (r : IncomeRow) : (cleanSingleRow r).ftotinc = r.ftotinc := by
  unfold cleanSingleRow
  split_ifs <;> rfl

theorem cleanSingleRow_hhincome (r : IncomeRow) : (cleanSingleRow r).hhincome = r.hhincome := by
  unfold cleanSingleRow
  split_ifs <;> rfl

theorem cleanSingleRow_otherPersonal (r : IncomeRow) :
    (cleanSingleRow r).otherPersonal = r.otherPersonal := by
  unfold cleanSingleRow
  split_ifs <;> rfl

theorem cleanSingleRow_itemizedSum (r : IncomeRow) :
    itemizedSum (cleanSingleRow r) = itemizedSum r := by
  unfold cleanSingleRow itemizedSum
  split_ifs <;> rfl

theorem stepped_otherPersonal (r : IncomeRow) (hp : r.otherPersonal = none) :
    (multiStepRow (cleanSingleRow r)).otherPersonal =
      if 1 < r.nfams ∧ r.ftotinc.isNone then some (itemizedSum r) else none := by
  rcases hft : r.ftotinc with _ | v <;> by_cases h1 : 1 < r.nfams <;>
    simp [multiStepRow, cleanSingleRow_nfams, cleanSingleRow_ftotinc,
      cleanSingleRow_otherPersonal, cleanSingleRow_itemizedSum, hp, hft, h1]

/-- The family-level `OTHERINCOME_FAMILY` value in closed form: the itemized
component sums of the family's previously-multi-family members whose
`FTOTINC` is null (every other member contributes NaN, counted as 0 by the
pandas group sum). -/
def famParts (rows : List IncomeRow) : ℚ :=
  ((rows.filter (fun r => decide (1 < r.nfams) && r.ftotinc.isNone)).map itemizedSum).sum

/-- The resolved `ACTUAL_HH_INCOME` of one row in closed form, given the
family fallback value `fam`. -/
def expectedActualFam (fam : ℚ) (r : IncomeRow) : Option ℚ :=
  if r.hhincome.isSome ∧ r.ftotinc.isSome then r.ftotinc
  else if r.nfams = 1 ∧ r.ftotinc.isSome then r.ftotinc
  else if r.nfams = 1 ∧ r.hhincome.isSome then r.hhincome
  else if 1 < r.nfams ∧ r.ftotinc.isSome then r.ftotinc
  else some fam

/-- The resolved `ACTUAL_HH_INCOME` of one row of a family in closed form. -/
def expectedActual (rows : List IncomeRow) (r : IncomeRow) : Option ℚ :=
  expectedActualFam (famParts rows) r

theorem familyOther_stepped (rows : List IncomeRow)
    (hfresh : ∀ r ∈ rows, r.otherPersonal = none) :
    familyOther ((rows.map cleanSingleRow).map multiStepRow) = famParts rows := by
  induction rows with
  | nil => rfl
  | cons a t ih =>
    have ha := hfresh a (List.mem_cons_self a t)
    have ht := fun r hr => hfresh r (List.mem_cons_of_mem a hr)
    have hstep := stepped_otherPersonal a ha
    unfold familyOther famParts at *
    simp only [List.map_cons, List.sum_cons, List.filter_cons]
    by_cases hc : 1 < a.nfams ∧ a.ftotinc.isNone
    · rw [hstep, if_pos hc, if_pos (by simpa using hc)]
      simp only [List.map_cons, List.sum_cons]
      rw [ih ht]
      simp
    · rw [hstep, if_neg hc, if_neg (by simpa using hc)]
      rw [ih ht]
      simp

theorem final_actual (fam : ℚ) (r : IncomeRow) (ha : r.actual = none)
    (hp : r.otherPersonal = none) :
    (fillFromFamily fam (multiStepRow (cleanSingleRow r))).actual =
      expectedActualFam fam r := by
  obtain ⟨n, hw, hh, ft, iw, iss, iwf, ii, ir, isp, io, ie, ac, op⟩ := r
  simp only at ha hp
  subst ha hp
  rcases hh with _ | vh <;> rcases ft with _ | vf <;> rcases n with _ | _ | n <;>
    simp [cleanSingleRow, multiStepRow, fillFromFamily, expectedActualFam, itemizedSum]

/-- C7 (amended): the income precedence the code actually implements, for
one family whose `ACTUAL_HH_INCOME` / `OTHERINCOME_PERSONAL` columns do
not yet exist: (1) a row with both `HHINCOME` and `FTOTINC` present
resolves to `FTOTINC`; (2) a single-family row with exactly one of the two
present resolves to that one; (3) a previously-multi-family row with
`FTOTINC` present resolves to `FTOTINC`, and with `FTOTINC` null resolves
to the family-level itemized component sum — `HHINCOME` alone is never used
for such rows; (4) any remaining row (e.g. single-family with both fields
null) also receives the family-level itemized sum, which is 0 when no
member contributes, rather than staying null. -/
theorem income_precedence_amended (rows : List IncomeRow)
    (hfresh : ∀ r ∈ rows, r.actual = none ∧ r.otherPersonal = none) :
    (resolveFamilyRows rows).map IncomeRow.actual = rows.map (expectedActual rows) := by
  simp only [resolveFamilyRows, process_multi_family_income_data]
  rw [familyOther_stepped rows (fun r hr => (hfresh r hr).2)]
  rw [List.map_map, List.map_map, List.map_map]
  refine List.map_congr_left (fun r hr => ?_)
  show (fillFromFamily (famParts rows) (multiStepRow (cleanSingleRow r))).actual =
    expectedActual rows r
  exact final_actual (famParts rows) r (hfresh r hr).1 (hfresh r hr).2

theorem income_precedence_amended_witness :
    (∀ r ∈ [IncomeRow.mk 1 30 none (some 5000) none none none none none none none
        none none none], r.actual = none ∧ r.otherPersonal = none) ∧
    (resolveFamilyRows [IncomeRow.mk 1 30 none (some 5000) none none none none none
        none none none none none]).map IncomeRow.actual = [some 5000] := by
  have hfresh : ∀ r ∈ [IncomeRow.mk 1 30 none (some 5000) none none none none none
      none none none none none], r.actual = none ∧ r.otherPersonal = none := by
    intro r hr
    simp only [List.mem_cons, List.not_mem_nil, or_false] at hr
    subst hr
    exact ⟨rfl, rfl⟩
  refine ⟨hfresh, ?_⟩
  rw [income_precedence_amended _ hfresh]
  simp [expectedActual, expectedActualFam]

/-- C7 (counterexample to the claim as stated): a previously-multi-family
one-member family with `HHINCOME = 7000` present and `FTOTINC` null
resolves to 0 (the empty itemized sum), not to the present household-level
aggregate 7000 that tier (2) of the claimed precedence requires. -/
theorem income_precedence_cex :
    (resolveFamilyRows [IncomeRow.mk 2 30 (some 7000) none none none none none none
        none none none none none]).map IncomeRow.actual = [some 0] ∧
    (some (0:ℚ)) ≠ some 7000 := by
  constructor
  · simp [resolveFamilyRows, process_multi_family_income_data, multiStepRow,
      cleanSingleRow, fillFromFamily, familyOther, itemizedSum]
  · simp

/-! ## Eligibility evaluator: `calculate_eligibility`
(`hudlink_eligibility_calculation.py`, lines 15-90) -/

/-- The three income-limit tiers (column families `il30_p*`, `il50_p*`,
`il80_p*`). -/
inductive Tier where
  | t30
  | t50
  | t80
deriving DecidableEq, Repr

/-- One row of the income-limits table: the county key and the size-indexed
threshold columns (`limit t s` = column `il{t}_p{s}`; a missing column or
NaN cell is `none`). -/
structure ILEntry where
  county : String
  limit : Tier → ℕ → Option ℚ

/-- One family row entering `calculate_eligibility`: `FAMSIZE`,
`County_Name_Alt`, `ACTUAL_HH_INCOME`, the configured weight column and
`GQTYPE`. -/
structure FamilyRow where
  famsize : ℕ
  countyAlt : String
  income : Option ℚ
  weight : ℚ
  gqtype : ℤ

/-- `ADJUSTED_FAMSIZE = FAMSIZE.apply(lambda x: 8 if x > 8 else x)`. -/
def adjusted_famsize (x : ℕ) : ℕ :=
  if 8 < x then 8 else x

/-- The row lambda of lines 74-79: `1 if ACTUAL_HH_INCOME <= il{t}_p{s}
else 0`; any comparison against NaN is false in pandas, so a missing income
or threshold yields 0. -/
def eligibleFlag (income lim : Option ℚ) : ℕ :=
  match income, lim with
  | some i, some t => if i ≤ t then 1 else 0
  | _, _ => 0

/-- One output row: the eligibility flags `Eligible_at_{t}` and the weighted
counts `Weighted_Eligibility_Count_{t}`. -/
structure EligRow where
  row : FamilyRow
  adjusted : ℕ
  elig : Tier → ℕ
  welig : Tier → ℚ

/-- The per-row computation of `calculate_eligibility`: adjust the family
size, read the merged threshold for each tier (missing when the county was
absent from the income-limits table), set the flag and the weighted count
`flag * weight`. -/
def calcRow (entry : Option ILEntry) (r : FamilyRow) : EligRow :=
  ⟨r, adjusted_famsize r.famsize,
    fun t => eligibleFlag r.income
      (entry.bind (fun il => il.limit t (adjusted_famsize r.famsize))),
    fun t => (eligibleFlag r.income
      (entry.bind (fun il => il.limit t (adjusted_famsize r.famsize))) : ℚ) * r.weight⟩

/-- `df.merge(income_limits_df, left_on='County_Name_Alt',
right_on='County_Name', how='left')`, restricted to one family row. -/
def mergeIL (ils : List ILEntry) (r : FamilyRow) : List (FamilyRow × Option ILEntry) :=
  match ils.filter (fun e => decide (e.county = r.countyAlt)) with
  | [] => [(r, none)]
  | ms => ms.map (fun e => (r, some e))

/-- Lines 82-88: with `exclude_group_quarters`, zero the eligibility and
weighted-count columns of every `GQTYPE == 2` row. -/
def gqZero (excludeGQ : Bool) (e : EligRow) : EligRow :=
  if excludeGQ ∧ e.row.gqtype = 2 then ⟨e.row, e.adjusted, fun _ => 0, fun _ => 0⟩ else e

/-- `calculate_eligibility`: merge each family row against the income-limit
table, compute the per-tier flags and weighted counts, then apply the
optional group-quarters exclusion. -/
def calculate_eligibility (rows : List FamilyRow) (ils : List ILEntry)
    (excludeGQ : Bool) : List EligRow :=
  (rows.flatMap (mergeIL ils)).map (fun p => gqZero excludeGQ (calcRow p.2 p.1))

/-- C4: a previously-multi-family family with every income source null
(`HHINCOME`, `FTOTINC` and all itemized components NaN) does not keep a
null `ACTUAL_HH_INCOME`: the pandas all-NaN sums make its
`OTHERINCOME_FAMILY` 0, which is then written into `ACTUAL_HH_INCOME`, and
income 0 passes any non-negative threshold (`eligibleFlag (some 0) ... = 1`)
whereas a null income would have failed it — the family is treated as
zero-income, contradicting the claim. -/
theorem no_income_family_zeroed_bug :
    (resolveFamilyRows [IncomeRow.mk 2 30 none none none none none none none none
        none none none none]).map IncomeRow.actual = [some 0] ∧
    eligibleFlag (some 0) (some 45000) = 1 ∧
    eligibleFlag none (some 45000) = 0 := by
  refine ⟨?_, by norm_num [eligibleFlag], rfl⟩
  simp [resolveFamilyRows, process_multi_family_income_data, multiStepRow,
    cleanSingleRow, fillFromFamily, familyOther, itemizedSum]

theorem adjusted_famsize_eq_min (x : ℕ) : adjusted_famsize x = min x 8 := by
  unfold adjusted_famsize
  split_ifs with h <;> omega

/-- C6: for a family row with a resolved income and a merged income-limit
entry providing the threshold for its adjusted size `min(FAMSIZE, 8)`, the
tier flag is 1 exactly when income ≤ threshold, 0 exactly otherwise, and
the weighted count equals flag × weight. -/
theorem eligibility_threshold_correct (il : ILEntry) (r : FamilyRow) (t : Tier)
    (i τ : ℚ) (hi : r.income = some i)
    (hτ : il.limit t (min r.famsize 8) = some τ) :
    ((calcRow (some il) r).elig t = 1 ↔ i ≤ τ) ∧
    ((calcRow (some il) r).elig t = 0 ↔ ¬ i ≤ τ) ∧
    (calcRow (some il) r).welig t = ((calcRow (some il) r).elig t : ℚ) * r.weight := by
  have hτ' : il.limit t (adjusted_famsize r.famsize) = some τ := by
    rw [adjusted_famsize_eq_min]
    exact hτ
  refine ⟨?_, ?_, rfl⟩
  · show eligibleFlag r.income (il.limit t (adjusted_famsize r.famsize)) = 1 ↔ i ≤ τ
    rw [hi, hτ']
    show (if i ≤ τ then 1 else 0) = 1 ↔ i ≤ τ
    split_ifs with h <;> simp [h]
  · show eligibleFlag r.income (il.limit t (adjusted_famsize r.famsize)) = 0 ↔ ¬ i ≤ τ
    rw [hi, hτ']
    show (if i ≤ τ then 1 else 0) = 0 ↔ ¬ i ≤ τ
    split_ifs with h <;> simp [h]

/-- The income-limit row of the C6 scenario: threshold 45000 at tier 50%,
size 4; every other cell missing. -/
def limit50 : Tier → ℕ → Option ℚ :=
  fun t s => if t = Tier.t50 ∧ s = 4 then some 45000 else none

theorem eligibility_threshold_correct_witness :
    (calcRow (some (ILEntry.mk "X County" limit50))
      (FamilyRow.mk 4 "X County" (some 44000) 3 0)).elig Tier.t50 = 1 ∧
    (calcRow (some (ILEntry.mk "X County" limit50))
      (FamilyRow.mk 4 "X County" (some 46000) 3 0)).elig Tier.t50 = 0 ∧
    (calcRow (some (ILEntry.mk "X County" limit50))
      (FamilyRow.mk 4 "X County" (some 44000) 3 0)).welig Tier.t50 =
      ((calcRow (some (ILEntry.mk "X County" limit50))
        (FamilyRow.mk 4 "X County" (some 44000) 3 0)).elig Tier.t50 : ℚ) *
        (FamilyRow.mk 4 "X County" (some 44000) 3 0).weight := by
  have h1 := eligibility_threshold_correct (ILEntry.mk "X County" limit50)
    (FamilyRow.mk 4 "X County" (some 44000) 3 0) Tier.t50 44000 45000 rfl
    (by simp [limit50])
  have h2 := eligibility_threshold_correct (ILEntry.mk "X County" limit50)
    (FamilyRow.mk 4 "X County" (some 46000) 3 0) Tier.t50 46000 45000 rfl
    (by simp [limit50])
  exact ⟨h1.1.mpr (by norm_num), h2.2.1.mpr (by norm_num), h1.2.2⟩

/-- C8: for a family row whose three merged tier thresholds (at its adjusted
size) exist and are non-decreasing, eligibility at the 30% tier implies
eligibility at the 50% and 80% tiers. -/
theorem eligibility_monotone (entry : Option ILEntry) (r : FamilyRow) (a b c : ℚ)
    (h30 : entry.bind (fun il => il.limit Tier.t30 (adjusted_famsize r.famsize)) = some a)
    (h50 : entry.bind (fun il => il.limit Tier.t50 (adjusted_famsize r.famsize)) = some b)
    (h80 : entry.bind (fun il => il.limit Tier.t80 (adjusted_famsize r.famsize)) = some c)
    (hab : a ≤ b) (hbc : b ≤ c)
    (h1 : (calcRow entry r).elig Tier.t30 = 1) :
    (calcRow entry r).elig Tier.t50 = 1 ∧ (calcRow entry r).elig Tier.t80 = 1 := by
  rcases hi : r.income with _ | i
  · exfalso
    have h1' : eligibleFlag r.income
        (entry.bind (fun il => il.limit Tier.t30 (adjusted_famsize r.famsize))) = 1 := h1
    rw [hi, h30] at h1'
    exact absurd h1' (by simp [eligibleFlag])
  · have h1' : eligibleFlag r.income
        (entry.bind (fun il => il.limit Tier.t30 (adjusted_famsize r.famsize))) = 1 := h1
    rw [hi, h30] at h1'
    have hia : i ≤ a := by
      by_contra hn
      have : eligibleFlag (some i) (some a) = 0 := by
        show (if i ≤ a then 1 else 0) = 0
        rw [if_neg hn]
      omega
    constructor
    · show eligibleFlag r.income
        (entry.bind (fun il => il.limit Tier.t50 (adjusted_famsize r.famsize))) = 1
      rw [hi, h50]
      show (if i ≤ b then 1 else 0) = 1
      rw [if_pos (le_trans hia hab)]
    · show eligibleFlag r.income
        (entry.bind (fun il => il.limit Tier.t80 (adjusted_famsize r.famsize))) = 1
      rw [hi, h80]
      show (if i ≤ c then 1 else 0) = 1
      rw [if_pos (le_trans hia (le_trans hab hbc))]

/-- The income-limit row of the C8 witness: thresholds 30000/45000/60000 at
size 4. -/
def limitTiers : Tier → ℕ → Option ℚ :=
  fun t s =>
    if s = 4 then
      match t with
      | Tier.t30 => some 30000
      | Tier.t50 => some 45000
      | Tier.t80 => some 60000
    else none

theorem eligibility_monotone_witness :
    (calcRow (some (ILEntry.mk "X County" limitTiers))
      (FamilyRow.mk 4 "X County" (some 25000) 3 0)).elig Tier.t30 = 1 ∧
    (calcRow (some (ILEntry.mk "X County" limitTiers))
      (FamilyRow.mk 4 "X County" (some 25000) 3 0)).elig Tier.t50 = 1 ∧
    (calcRow (some (ILEntry.mk "X County" limitTiers))
      (FamilyRow.mk 4 "X County" (some 25000) 3 0)).elig Tier.t80 = 1 := by
  have h30 : (calcRow (some (ILEntry.mk "X County" limitTiers))
      (FamilyRow.mk 4 "X County" (some 25000) 3 0)).elig Tier.t30 = 1 := by
    show (if (25000:ℚ) ≤ 30000 then 1 else 0) = 1
    norm_num
  have hm := eligibility_monotone (some (ILEntry.mk "X County" limitTiers))
    (FamilyRow.mk 4 "X County" (some 25000) 3 0) 30000 45000 60000
    (by simp [limitTiers, adjusted_famsize]) (by simp [limitTiers, adjusted_famsize])
    (by simp [limitTiers, adjusted_famsize]) (by norm_num) (by norm_num) h30
  exact ⟨h30, hm.1, hm.2⟩
